import Mathlib

/-!
Verification of the workflow compiler / execution engine core of the
`inference` repository against its natural-language specification.

The repository excerpt under `src/` contains the HTTP describe-blocks handler
(`inference/core/interfaces/http/handlers/workflows.py`), the mask
visualization block (`inference/core/workflows/core_steps/visualizations/mask.py`)
and integration tests.  The engine itself (kind registry, workflow graph
compiler, dynamic block compiler, connection discovery, execution engine) is
not part of the excerpt; those parts are modelled from the specification, as
marked on each definition.  The handler and the mask block are translated
from the source files directly.
-/

namespace Workflows

/-- Runtime values flowing between steps.  Concrete payloads (images,
predictions, strings, numbers) are opaque to the engine; `noOutput` is the
sentinel produced by error-tolerant steps (spec section 4.6 point 5). -/
inductive Value where
  | vstr : String → Value
  | vnat : Nat → Value
  | vimg : String → Value
  | noOutput : Value
deriving DecidableEq

/-- Reference expression pointing at a workflow input or at a step output
field (spec glossary, selectors of the form $inputs.X and $steps.Y.Z). -/
inductive SelRef where
  | inp : String → SelRef
  | step : String → String → SelRef
deriving DecidableEq

/-- Parameter value of a step: a literal, or a selector.  Nested containers
of values, which the data model also permits, do not affect the claims and
are modelled by their flattened selector content. -/
inductive ParamValue where
  | lit : Value → ParamValue
  | inputSel : String → ParamValue
  | stepSel : String → String → ParamValue
deriving DecidableEq

/-- Modelled from the spec: section 4.2, one parameter declaration inside a
BlockManifest — accepted kind set ([] meaning a primitive, non-kind-tagged
parameter), container flags and the raw type hint recorded for primitives. -/
structure PropertySpec where
  name : String
  description : String
  kinds : List String
  selector_capable : Bool
  is_list_element : Bool
  is_dict_element : Bool
  type_hint : String
deriving DecidableEq

/-- Modelled from the spec: section 3, static metadata of one block type. -/
structure BlockManifest where
  manifest_type_identifier : String
  description : String
  properties : List PropertySpec
  outputs : List (String × List String)
deriving DecidableEq

/-- Modelled from the spec: section 4.4, the merged catalog of block
manifests together with the declared kinds. -/
structure BlocksDescription where
  blocks : List BlockManifest
  declared_kinds : List String
deriving DecidableEq

/-- Declared workflow input (spec section 3, WorkflowDefinition). -/
structure InputSpec where
  type_id : String
  name : String
  kind : List String
deriving DecidableEq

/-- One step specification of a workflow definition. -/
structure StepSpec where
  type_id : String
  name : String
  params : List (String × ParamValue)
deriving DecidableEq

/-- Declared output of a workflow definition. -/
structure OutputSpec where
  name : String
  selector : SelRef
  coordinates_system : String
deriving DecidableEq

/-- Modelled from the spec: section 3, a workflow definition as supplied per
execution request. -/
structure WorkflowDefinition where
  inputs : List InputSpec
  steps : List StepSpec
  outputs : List OutputSpec
deriving DecidableEq

/-- Modelled from the spec: section 7, the compile-time error taxonomy. -/
inductive CompileError where
  | UnknownBlockTypeError : String → CompileError
  | UnresolvedSelectorError : SelRef → CompileError
  | IncompatibleKindError : String → String → CompileError
  | CyclicGraphError : CompileError
  | UnresolvedOutputError : String → CompileError
  | DuplicateBlockTypeError : CompileError
  | InvalidDynamicBlockError : CompileError
deriving DecidableEq

/-- Modelled from the spec: section 3, the compiled execution graph — the
topological step ordering plus the selector-induced dependency edges. -/
structure ExecutionGraph where
  order : List String
  edges : List (String × String)
deriving DecidableEq

/-- Modelled from the spec: section 4.1, kind compatibility — true iff the
producer kind set and the consumer kind set intersect (union typing). -/
def is_compatible (producer_kinds consumer_kinds : List String) : Bool :=
  producer_kinds.any (fun k => consumer_kinds.contains k)

/-- Compatibility check used by the graph compiler; an empty accepted set
stands for an untyped parameter and an empty producer set for an untyped
producer, both treated as the wildcard set per spec section 9. -/
def kindsOk (producer consumer : List String) : Bool :=
  consumer.isEmpty || producer.isEmpty || is_compatible producer consumer

/-- Lookup of a block manifest by its type identifier. -/
def findBlock (bd : BlocksDescription) (t : String) : Option BlockManifest :=
  bd.blocks.find? (fun m => m.manifest_type_identifier == t)

/-- Accepted kinds of a manifest property, defaulting to the wildcard. -/
def propKinds (m : BlockManifest) (pname : String) : List String :=
  ((m.properties.find? (fun p => p.name == pname)).map PropertySpec.kinds).getD []

/-- Names of the steps of a workflow definition. -/
def stepNames (wd : WorkflowDefinition) : List String :=
  wd.steps.map StepSpec.name

/-- Names of the declared inputs of a workflow definition. -/
def inputNames (wd : WorkflowDefinition) : List String :=
  wd.inputs.map InputSpec.name

/-- Existence of the referent of a $steps.y.z selector anywhere in the
definition: a step named y whose block declares output z (or any field for
the wildcard selector). -/
def stepReferentExists (wd : WorkflowDefinition) (bd : BlocksDescription) (y z : String) : Bool :=
  match wd.steps.find? (fun t => t.name == y) with
  | none => false
  | some t =>
      match findBlock bd t.type_id with
      | none => false
      | some tm => z == "*" || tm.outputs.any (fun o => o.1 == z)

/-- Modelled from the spec: section 4.5 step 3 and 4, resolution of one
parameter value of step `s` (whose manifest is `m`): selectors resolve
against the declared inputs or against any step of the definition, kind
compatibility is checked, and the produced dependency edges are returned. -/
def resolveParamValue (wd : WorkflowDefinition) (bd : BlocksDescription)
    (m : BlockManifest) (s : StepSpec) (pname : String) :
    ParamValue → Except CompileError (List (String × String))
  | ParamValue.lit _ => Except.ok []
  | ParamValue.inputSel n =>
      match wd.inputs.find? (fun i => i.name == n) with
      | none => Except.error (CompileError.UnresolvedSelectorError (SelRef.inp n))
      | some inp =>
          if kindsOk inp.kind (propKinds m pname) then Except.ok [(n, s.name)]
          else Except.error (CompileError.IncompatibleKindError s.name pname)
  | ParamValue.stepSel y z =>
      match wd.steps.find? (fun t => t.name == y) with
      | none => Except.error (CompileError.UnresolvedSelectorError (SelRef.step y z))
      | some t =>
          match findBlock bd t.type_id with
          | none => Except.error (CompileError.UnknownBlockTypeError t.type_id)
          | some tm =>
              if z == "*" then Except.ok [(y, s.name)]
              else
                match tm.outputs.find? (fun o => o.1 == z) with
                | none => Except.error (CompileError.UnresolvedSelectorError (SelRef.step y z))
                | some o =>
                    if kindsOk o.2 (propKinds m pname) then Except.ok [(y, s.name)]
                    else Except.error (CompileError.IncompatibleKindError s.name pname)

/-- Resolution of all parameters of one step. -/
def collectParamEdges (wd : WorkflowDefinition) (bd : BlocksDescription)
    (m : BlockManifest) (s : StepSpec) :
    List (String × ParamValue) → Except CompileError (List (String × String))
  | [] => Except.ok []
  | (pname, pv) :: rest =>
      match resolveParamValue wd bd m s pname pv with
      | Except.error e => Except.error e
      | Except.ok es =>
          match collectParamEdges wd bd m s rest with
          | Except.error e => Except.error e
          | Except.ok es2 => Except.ok (es ++ es2)

/-- Modelled from the spec: section 4.5 step 2, resolution of one step's
type against the block registry followed by parameter resolution. -/
def collectStepEdges (wd : WorkflowDefinition) (bd : BlocksDescription)
    (s : StepSpec) : Except CompileError (List (String × String)) :=
  match findBlock bd s.type_id with
  | none => Except.error (CompileError.UnknownBlockTypeError s.type_id)
  | some m => collectParamEdges wd bd m s s.params

/-- Resolution of all steps of a definition, accumulating dependency edges. -/
def collectSteps (wd : WorkflowDefinition) (bd : BlocksDescription) :
    List StepSpec → Except CompileError (List (String × String))
  | [] => Except.ok []
  | s :: rest =>
      match collectStepEdges wd bd s with
      | Except.error e => Except.error e
      | Except.ok es =>
          match collectSteps wd bd rest with
          | Except.error e => Except.error e
          | Except.ok es2 => Except.ok (es ++ es2)

/-- Dependency edges induced by all selectors of a workflow definition. -/
def collectEdges (wd : WorkflowDefinition) (bd : BlocksDescription) :
    Except CompileError (List (String × String)) :=
  collectSteps wd bd wd.steps

/-- Node ready for scheduling: all of its incoming edges start at already
ordered nodes. -/
def pickReady (edges : List (String × String)) (remaining done : List String) :
    Option String :=
  remaining.find? (fun n => edges.all (fun e => e.2 != n || done.contains e.1))

/-- Fuelled Kahn-style topological ordering; returns none when no linear
order compatible with the edges exists. -/
def topoAux (edges : List (String × String)) :
    Nat → List String → List String → Option (List String)
  | 0, remaining, done => if remaining.isEmpty then some done.reverse else none
  | fuel + 1, remaining, done =>
      if remaining.isEmpty then some done.reverse
      else
        match pickReady edges remaining done with
        | none => none
        | some n => topoAux edges fuel (remaining.erase n) (n :: done)

/-- Modelled from the spec: section 4.5 step 5, derivation of the execution
order from the dependency edges (never from declaration order). -/
def topoSort (nodes : List String) (edges : List (String × String)) :
    Option (List String) :=
  topoAux edges nodes.length nodes []

/-- Resolution of one declared output selector (spec section 4.5 step 6). -/
def outputResolves (wd : WorkflowDefinition) (bd : BlocksDescription) :
    SelRef → Bool
  | SelRef.inp n => wd.inputs.any (fun i => i.name == n)
  | SelRef.step y z => stepReferentExists wd bd y z

/-- Check of all declared outputs, failing on a dangling output selector. -/
def checkOutputs (wd : WorkflowDefinition) (bd : BlocksDescription) :
    List OutputSpec → Except CompileError Unit
  | [] => Except.ok ()
  | o :: rest =>
      if outputResolves wd bd o.selector then checkOutputs wd bd rest
      else Except.error (CompileError.UnresolvedOutputError o.name)

/-- Modelled from the spec: section 4.5, the workflow graph compiler —
selector resolution against the unordered step list, kind validation,
dependency edges, cycle detection and output resolution. -/
def compile (wd : WorkflowDefinition) (bd : BlocksDescription) :
    Except CompileError ExecutionGraph :=
  match collectEdges wd bd with
  | Except.error e => Except.error e
  | Except.ok edges =>
      match topoSort (inputNames wd ++ stepNames wd) edges with
      | none => Except.error CompileError.CyclicGraphError
      | some order =>
          match checkOutputs wd bd wd.outputs with
          | Except.error e => Except.error e
          | Except.ok _ => Except.ok { order := order, edges := edges }

/-- Modelled from the spec: section 3, a declarative dynamic block
definition — the manifest fields plus the declared behavior, the latter
being opaque data for the claims under study (its evaluation contract is
out of their scope). -/
structure DynamicBlockDefinition where
  manifest_type_identifier : String
  description : String
  properties : List PropertySpec
  outputs : List (String × List String)
  body : String
deriving DecidableEq

/-- Duplicate detection over a list of identifiers. -/
def hasDuplicate : List String → Bool
  | [] => false
  | x :: xs => xs.contains x || hasDuplicate xs

/-- Manifest produced for a compiled dynamic block. -/
def toBlockManifest (d : DynamicBlockDefinition) : BlockManifest :=
  { manifest_type_identifier := d.manifest_type_identifier
  , description := d.description
  , properties := d.properties
  , outputs := d.outputs }

/-- Kind mentioned by a dynamic definition that is unknown to the registry. -/
def unknownKindIn (declared : List String) (d : DynamicBlockDefinition) : Bool :=
  d.properties.any (fun p => p.kinds.any (fun k => !(declared.contains k)))
    || d.outputs.any (fun o => o.2.any (fun k => !(declared.contains k)))

/-- Modelled from the spec: section 4.3, the dynamic block compiler —
definitions sharing a declared type identifier fail with
DuplicateBlockTypeError, manifests referring to unknown kinds fail with
InvalidDynamicBlockError, the rest compile to block manifests satisfying
the uniform contract. -/
def compile_dynamic_blocks (declared_kinds : List String)
    (dynamic_blocks_definitions : List DynamicBlockDefinition) :
    Except CompileError (List BlockManifest) :=
  if hasDuplicate (dynamic_blocks_definitions.map
      DynamicBlockDefinition.manifest_type_identifier) then
    Except.error CompileError.DuplicateBlockTypeError
  else if dynamic_blocks_definitions.any (unknownKindIn declared_kinds) then
    Except.error CompileError.InvalidDynamicBlockError
  else Except.ok (dynamic_blocks_definitions.map toBlockManifest)

/-- Modelled from the spec: section 4.4, registry build — static and freshly
compiled dynamic manifests merge into one catalog keyed by the type
identifier, failing with DuplicateBlockTypeError on collision. -/
def describe_available_blocks (declared_kinds : List String)
    (static_blocks dynamic_blocks : List BlockManifest) :
    Except CompileError BlocksDescription :=
  let merged := static_blocks ++ dynamic_blocks
  if hasDuplicate (merged.map BlockManifest.manifest_type_identifier) then
    Except.error CompileError.DuplicateBlockTypeError
  else Except.ok { blocks := merged, declared_kinds := declared_kinds }

/-- One legal connection: block and parameter able to receive a kind,
mirroring ExternalWorkflowsBlockSelectorDefinition of the handler source. -/
structure BlockSelectorDefinition where
  manifest_type_identifier : String
  property_name : String
  property_description : String
  compatible_element : String
  is_list_element : Bool
  is_dict_element : Bool
deriving DecidableEq

/-- One primitive-parameter connection, mirroring
ExternalBlockPropertyPrimitiveDefinition of the handler source. -/
structure BlockPropertyPrimitiveDefinition where
  manifest_type_identifier : String
  property_name : String
  property_description : String
  type_hint : String
deriving DecidableEq

/-- Result of connection discovery over a blocks description. -/
structure BlocksConnections where
  kinds_connections : List (String × List BlockSelectorDefinition)
  primitives_connections : List BlockPropertyPrimitiveDefinition
deriving DecidableEq

/-- Connections able to consume kind `k` among the given manifests. -/
def connectionsForKind (blocks : List BlockManifest) (k : String) :
    List BlockSelectorDefinition :=
  blocks.flatMap (fun b => b.properties.filterMap (fun p =>
    if p.kinds.contains k then
      some { manifest_type_identifier := b.manifest_type_identifier
           , property_name := p.name
           , property_description := p.description
           , compatible_element := "any"
           , is_list_element := p.is_list_element
           , is_dict_element := p.is_dict_element }
    else none))

/-- Modelled from the spec: section 4.4, connection discovery — for every
declared kind, every (block, parameter) pair accepting it, and separately
every pair accepting primitive (non-kind-tagged) values with its raw type
hint; a pure derivation of the blocks description. -/
def discover_blocks_connections (blocks_description : BlocksDescription) :
    BlocksConnections :=
  { kinds_connections := blocks_description.declared_kinds.map (fun k =>
      (k, connectionsForKind blocks_description.blocks k))
  , primitives_connections := blocks_description.blocks.flatMap (fun b =>
      b.properties.filterMap (fun p =>
        if p.kinds.isEmpty then
          some { manifest_type_identifier := b.manifest_type_identifier
               , property_name := p.name
               , property_description := p.description
               , type_hint := p.type_hint }
        else none)) }

/-- Description of the embedded expression language, mirroring
UniversalQueryLanguageDescription of the handler source. -/
structure UniversalQueryLanguageDescription where
  operations_descriptions : List String
  operators_descriptions : List String
deriving DecidableEq

/-- Response of the describe-blocks query, mirroring
WorkflowsBlocksDescription of the handler source. -/
structure WorkflowsBlocksDescription where
  blocks : List BlockManifest
  declared_kinds : List String
  kinds_connections : List (String × List BlockSelectorDefinition)
  primitives_connections : List BlockPropertyPrimitiveDefinition
  universal_query_language_description : UniversalQueryLanguageDescription
  dynamic_block_definition_schema : String
deriving DecidableEq

/-- Translation of `handle_describe_workflows_blocks_request` from
`src/inference/core/interfaces/http/handlers/workflows.py`.  The process
catalog, the kind registry and the expression-language descriptions are the
handler's external collaborators and enter as parameters; an absent list of
dynamic definitions is replaced by the empty list exactly as in the source. -/
def handle_describe_workflows_blocks_request
    (static_blocks : List BlockManifest) (declared_kinds : List String)
    (uql_operations_descriptions uql_operators_descriptions : List String)
    (dynamic_blocks_definitions : Option (List DynamicBlockDefinition)) :
    Except CompileError WorkflowsBlocksDescription :=
  let defs := match dynamic_blocks_definitions with
    | none => []
    | some l => l
  match compile_dynamic_blocks declared_kinds defs with
  | Except.error e => Except.error e
  | Except.ok dynamic_blocks =>
      match describe_available_blocks declared_kinds static_blocks dynamic_blocks with
      | Except.error e => Except.error e
      | Except.ok blocks_description =>
          let blocks_connections := discover_blocks_connections blocks_description
          Except.ok
            { blocks := blocks_description.blocks
            , declared_kinds := blocks_description.declared_kinds
            , kinds_connections := blocks_connections.kinds_connections
            , primitives_connections := blocks_connections.primitives_connections
            , universal_query_language_description :=
                { operations_descriptions := uql_operations_descriptions
                , operators_descriptions := uql_operators_descriptions }
            , dynamic_block_definition_schema := "DynamicBlockDefinition" }

/-- Runtime value of one declared input: a scalar broadcast to every batch
element, or a batch of per-element values (spec section 4.6 point 2). -/
inductive InputValue where
  | scalar : Value → InputValue
  | batch : List Value → InputValue
deriving DecidableEq

/-- Modelled from the spec: section 7, the run-time error taxonomy plus the
fatal step-execution failure carrying the step name and the cause. -/
inductive EngineError where
  | InputValidationError : String → EngineError
  | BatchSizeMismatchError : EngineError
  | StepExecutionError : String → String → EngineError
deriving DecidableEq

/-- Uniform block run contract (spec section 6): resolved parameters in,
declared outputs out, or a failure cause. -/
def RunBlock : Type :=
  String → List (String × Value) → Except String (List (String × Value))

/-- Per-block error-tolerance policy declared by step implementations. -/
def Tolerant : Type := String → Bool

/-- Per-batch-element execution state: step name to produced outputs. -/
def ElementState : Type := List (String × List (String × Value))

/-- Lookup of a value in a field map, with the sentinel as default; the
compiler guarantees resolvable selectors, so the default is never consulted
on compiled workflows. -/
def lookupVal (l : List (String × Value)) (k : String) : Value :=
  ((l.find? (fun p => p.1 == k)).map Prod.snd).getD Value.noOutput

/-- Outputs a step has produced in the element state. -/
def stepOuts (st : ElementState) (y : String) : List (String × Value) :=
  ((st.find? (fun p => p.1 == y)).map Prod.snd).getD []

/-- Resolution of a parameter value against the element inputs and state. -/
def resolveParam (inputs : List (String × Value)) (st : ElementState) :
    ParamValue → Value
  | ParamValue.lit v => v
  | ParamValue.inputSel n => lookupVal inputs n
  | ParamValue.stepSel y z => lookupVal (stepOuts st y) z

/-- Declared output field names of a block type. -/
def outputFields (bd : BlocksDescription) (t : String) : List String :=
  ((findBlock bd t).map (fun m => m.outputs.map Prod.fst)).getD []

/-- Modelled from the spec: section 4.6 point 5, execution of one step for
one batch element — a parameter carrying the sentinel makes the step
propagate the sentinel instead of running; a block failure is fatal unless
the block declares error tolerance, in which case every declared output
field carries the sentinel. -/
def executeStep (rb : RunBlock) (tol : Tolerant) (bd : BlocksDescription)
    (inputs : List (String × Value)) (s : StepSpec) (st : ElementState) :
    Except EngineError ElementState :=
  let params := s.params.map (fun p => (p.1, resolveParam inputs st p.2))
  if params.any (fun p => p.2 == Value.noOutput) then
    Except.ok ((s.name, (outputFields bd s.type_id).map
      (fun f => (f, Value.noOutput))) :: st)
  else
    match rb s.type_id params with
    | Except.ok outs => Except.ok ((s.name, outs) :: st)
    | Except.error cause =>
        if tol s.type_id then
          Except.ok ((s.name, (outputFields bd s.type_id).map
            (fun f => (f, Value.noOutput))) :: st)
        else Except.error (EngineError.StepExecutionError s.name cause)

/-- Execution of the ordered steps for one batch element. -/
def executeSteps (rb : RunBlock) (tol : Tolerant) (bd : BlocksDescription)
    (inputs : List (String × Value)) :
    List StepSpec → ElementState → Except EngineError ElementState
  | [], st => Except.ok st
  | s :: rest, st =>
      match executeStep rb tol bd inputs s st with
      | Except.error e => Except.error e
      | Except.ok st2 => executeSteps rb tol bd inputs rest st2

/-- Execution of a whole batch element against an empty state. -/
def executeElement (rb : RunBlock) (tol : Tolerant) (bd : BlocksDescription)
    (steps : List StepSpec) (inputs : List (String × Value)) :
    Except EngineError ElementState :=
  executeSteps rb tol bd inputs steps []

/-- Value assembled for one declared output: a single field, or the whole
output mapping of a step for a wildcard selector. -/
def OutputValue : Type := Value ⊕ List (String × Value)

/-- Resolution of one declared output selector against the element state. -/
def resolveOutput (inputs : List (String × Value)) (st : ElementState) :
    SelRef → OutputValue
  | SelRef.inp n => Sum.inl (lookupVal inputs n)
  | SelRef.step y z =>
      if z == "*" then Sum.inr (stepOuts st y)
      else Sum.inl (lookupVal (stepOuts st y) z)

/-- Modelled from the spec: section 4.6 point 6, assembly of the output
mapping of one batch element — one entry per declared output. -/
def assembleOutput (outs : List OutputSpec) (inputs : List (String × Value))
    (st : ElementState) : List (String × OutputValue) :=
  outs.map (fun o => (o.name, resolveOutput inputs st o.selector))

/-- Modelled from the spec: section 4.6, an initialized engine — the inputs,
the steps in the compiled topological order, the declared outputs and the
blocks description bound at init time.  The bounded worker pool admits the
serial topological schedule as one of its legal executions, which is the
schedule modelled here; inter-step concurrency never reorders the
dependency-respecting merge into the execution state (spec section 5). -/
structure Engine where
  inputs : List InputSpec
  steps : List StepSpec
  outputs : List OutputSpec
  blocks_description : BlocksDescription
deriving DecidableEq

/-- Steps of a workflow in the order computed by the graph compiler. -/
def orderedSteps (wd : WorkflowDefinition) (order : List String) : List StepSpec :=
  order.filterMap (fun n => wd.steps.find? (fun s => s.name == n))

/-- Modelled from the spec: section 4.6, engine initialization — compiles
the graph once and binds the engine state. -/
def initEngine (wd : WorkflowDefinition) (bd : BlocksDescription) :
    Except CompileError Engine :=
  match compile wd bd with
  | Except.error e => Except.error e
  | Except.ok g =>
      Except.ok { inputs := wd.inputs
                , steps := orderedSteps wd g.order
                , outputs := wd.outputs
                , blocks_description := bd }

/-- Declared input absent from the runtime parameters, if any. -/
def missingInput (inputs : List InputSpec)
    (runtime_parameters : List (String × InputValue)) : Option String :=
  (inputs.find? (fun i => !(runtime_parameters.any (fun p => p.1 == i.name)))).map
    InputSpec.name

/-- Lengths of all batched runtime inputs. -/
def batchLengths (runtime_parameters : List (String × InputValue)) : List Nat :=
  runtime_parameters.filterMap (fun p =>
    match p.2 with
    | InputValue.batch vs => some vs.length
    | InputValue.scalar _ => none)

/-- Modelled from the spec: section 4.6 point 2, batch size determination —
all batched inputs must agree on length; with no batched input the run is a
single conceptual element. -/
def batchSize (runtime_parameters : List (String × InputValue)) : Option Nat :=
  match batchLengths runtime_parameters with
  | [] => some 1
  | n :: rest => if rest.all (fun m => m == n) then some n else none

/-- Per-element view of the runtime parameters: batched inputs contribute
their i-th value, scalar inputs broadcast. -/
def elementInputs (runtime_parameters : List (String × InputValue)) (i : Nat) :
    List (String × Value) :=
  runtime_parameters.map (fun p =>
    (p.1, match p.2 with
          | InputValue.scalar v => v
          | InputValue.batch vs => vs.getD i Value.noOutput))

/-- Execution and output assembly of the i-th batch element. -/
def elementRun (rb : RunBlock) (tol : Tolerant) (e : Engine)
    (runtime_parameters : List (String × InputValue)) (i : Nat) :
    Except EngineError (List (String × OutputValue)) :=
  match executeElement rb tol e.blocks_description e.steps
      (elementInputs runtime_parameters i) with
  | Except.error err => Except.error err
  | Except.ok st =>
      Except.ok (assembleOutput e.outputs (elementInputs runtime_parameters i) st)

/-- Execution of the listed batch elements in order. -/
def runElements (rb : RunBlock) (tol : Tolerant) (e : Engine)
    (runtime_parameters : List (String × InputValue)) :
    List Nat → Except EngineError (List (List (String × OutputValue)))
  | [] => Except.ok []
  | i :: rest =>
      match elementRun rb tol e runtime_parameters i with
      | Except.error err => Except.error err
      | Except.ok out =>
          match runElements rb tol e runtime_parameters rest with
          | Except.error err => Except.error err
          | Except.ok outs => Except.ok (out :: outs)

/-- Modelled from the spec: section 4.6, the execution entry point — input
validation, batch size determination, per-element execution in the compiled
order and assembly of the ordered list of output mappings, one per original
batch element. -/
def run (rb : RunBlock) (tol : Tolerant) (e : Engine)
    (runtime_parameters : List (String × InputValue)) :
    Except EngineError (List (List (String × OutputValue))) :=
  match missingInput e.inputs runtime_parameters with
  | some n => Except.error (EngineError.InputValidationError n)
  | none =>
      match batchSize runtime_parameters with
      | none => Except.error EngineError.BatchSizeMismatchError
      | some n => runElements rb tol e runtime_parameters (List.range n)

/-- Image value passed between visualization blocks, translated from
`WorkflowImageData` as used by
`src/inference/core/workflows/core_steps/visualizations/mask.py`: the two
metadata fields and the pixel array, whose concrete types are opaque to the
block. -/
structure WorkflowImageData (Md Img : Type) where
  parent_metadata : Md
  workflow_root_ancestor_metadata : Md
  numpy_image : Img

/-- Translation of the `sv.MaskAnnotator` value built in
`MaskVisualizationBlock.getAnnotator`: the palette, the color lookup derived
from the color axis and the opacity. -/
structure Annotator where
  color : List String
  color_lookup : String
  opacity : Rat
deriving DecidableEq

/-- Key of the annotator cache, translated from
`MaskVisualizationBlock.getAnnotator` lines 74-84 of mask.py: the
underscore join of the string forms of color palette, palette size, color
axis and opacity. -/
def annotatorCacheKey (color_palette : String) (palette_size : Nat)
    (color_axis : String) (opacity : Rat) : String :=
  String.intercalate "_"
    [color_palette, toString palette_size, color_axis, toString opacity]

/-- Lookup in the annotator cache, modelling the Python dict. -/
def cacheLookup (cache : List (String × Annotator)) (k : String) :
    Option Annotator :=
  (cache.find? (fun p => p.1 == k)).map Prod.snd

/-- Translation of `MaskVisualizationBlock.getAnnotator` (mask.py lines
66-95).  `getPalette` is inherited from the colorable base class outside the
excerpt and enters as a parameter.  The mutable `annotatorCache` attribute
becomes explicit state passing: the call returns the annotator and the
updated cache. -/
def getAnnotator (getPalette : String → Nat → List String → List String)
    (cache : List (String × Annotator)) (color_palette : String)
    (palette_size : Nat) (custom_colors : List String) (color_axis : String)
    (opacity : Rat) : Annotator × List (String × Annotator) :=
  let key := annotatorCacheKey color_palette palette_size color_axis opacity
  match cacheLookup cache key with
  | some a => (a, cache)
  | none =>
      let a : Annotator :=
        { color := getPalette color_palette palette_size custom_colors
        , color_lookup := color_axis
        , opacity := opacity }
      (a, (key, a) :: cache)

/-- Output key of visualization blocks, imported by mask.py from the
visualization base module outside the excerpt; its concrete text does not
affect the claims. -/
def OUTPUT_IMAGE_KEY : String := "image"

/-- Translation of `MaskVisualizationBlock.run` (mask.py lines 97-127).
`annotate` stands for the external supervision annotator call and
`copyImage` for the numpy copy; both are external collaborators.  The
result is the returned output mapping together with the updated annotator
cache. -/
def maskVisualizationRun {Md Img Det : Type}
    (getPalette : String → Nat → List String → List String)
    (annotate : Annotator → Img → Det → Img) (copyImage : Img → Img)
    (cache : List (String × Annotator)) (image : WorkflowImageData Md Img)
    (predictions : Det) (copy_image : Bool) (color_palette : String)
    (palette_size : Nat) (custom_colors : List String) (color_axis : String)
    (opacity : Rat) :
    List (String × WorkflowImageData Md Img) × List (String × Annotator) :=
  let ar := getAnnotator getPalette cache color_palette palette_size
    custom_colors color_axis opacity
  let annotated_image := annotate ar.1
    (if copy_image then copyImage image.numpy_image else image.numpy_image)
    predictions
  let output : WorkflowImageData Md Img :=
    { parent_metadata := image.parent_metadata
    , workflow_root_ancestor_metadata := image.workflow_root_ancestor_metadata
    , numpy_image := annotated_image }
  ([(OUTPUT_IMAGE_KEY, output)], ar.2)

/-- Manifest of the Florence 2 block as wired by the integration tests:
image and grounding-detection selectors plus primitive task parameters. -/
def florenceManifest : BlockManifest :=
  { manifest_type_identifier := "roboflow_core/florence_2@v1"
  , description := "Florence 2 model"
  , properties :=
      [ { name := "images", description := "input images", kinds := ["image"]
        , selector_capable := true, is_list_element := false
        , is_dict_element := false, type_hint := "" }
      , { name := "grounding_detection", description := "grounding"
        , kinds := ["object_detection_prediction"], selector_capable := true
        , is_list_element := false, is_dict_element := false, type_hint := "" }
      , { name := "task_type", description := "task", kinds := []
        , selector_capable := false, is_list_element := false
        , is_dict_element := false, type_hint := "str" }
      , { name := "grounding_selection_mode", description := "selection mode"
        , kinds := [], selector_capable := false, is_list_element := false
        , is_dict_element := false, type_hint := "str" } ]
  , outputs := [("raw_output", ["string"]), ("classes", ["list_of_values"])] }

/-- Manifest of the object detection block as wired by the tests. -/
def objectDetectionManifest : BlockManifest :=
  { manifest_type_identifier := "roboflow_core/roboflow_object_detection_model@v1"
  , description := "Object detection model"
  , properties :=
      [ { name := "images", description := "input images", kinds := ["image"]
        , selector_capable := true, is_list_element := false
        , is_dict_element := false, type_hint := "" }
      , { name := "model_id", description := "model id", kinds := []
        , selector_capable := false, is_list_element := false
        , is_dict_element := false, type_hint := "str" } ]
  , outputs := [("predictions", ["object_detection_prediction"])] }

/-- Blocks description holding the two model manifests of the tests. -/
def bdModels : BlocksDescription :=
  { blocks := [florenceManifest, objectDetectionManifest]
  , declared_kinds := ["image", "object_detection_prediction", "string"
                      , "list_of_values"] }

/-- Workflow definition mirroring
FLORENCE2_GROUNDED_INSTANCE_SEGMENTATION_WORKFLOW_DEFINITION of
`src/tests/workflows/integration_tests/execution/test_workflow_florence2.py`:
the step `model` selects `$steps.model_1.predictions` although `model_1` is
declared only after it. -/
def wdForward : WorkflowDefinition :=
  { inputs := [{ type_id := "InferenceImage", name := "image", kind := ["image"] }]
  , steps :=
      [ { type_id := "roboflow_core/florence_2@v1", name := "model"
        , params :=
            [ ("images", ParamValue.inputSel "image")
            , ("task_type",
                ParamValue.lit (Value.vstr "detection-grounded-instance-segmentation"))
            , ("grounding_detection", ParamValue.stepSel "model_1" "predictions")
            , ("grounding_selection_mode",
                ParamValue.lit (Value.vstr "most-confident")) ] }
      , { type_id := "roboflow_core/roboflow_object_detection_model@v1"
        , name := "model_1"
        , params :=
            [ ("images", ParamValue.inputSel "image")
            , ("model_id", ParamValue.lit (Value.vstr "yolov8n-640")) ] } ]
  , outputs :=
      [ { name := "model_predictions", selector := SelRef.step "model" "*"
        , coordinates_system := "own" } ] }

/-- Graph the compiler produces for `wdForward`: the execution order places
`model_1` before `model`, the reverse of the declaration order. -/
def graphForward : ExecutionGraph :=
  { order := ["image", "model_1", "model"]
  , edges := [("image", "model"), ("model_1", "model"), ("image", "model_1")] }

/-- Manifest of a block with one untyped selector parameter and one output,
used by the cyclic workflow examples. -/
def loopManifest : BlockManifest :=
  { manifest_type_identifier := "loop_block"
  , description := "block looping on another step"
  , properties :=
      [ { name := "p", description := "selector", kinds := []
        , selector_capable := true, is_list_element := false
        , is_dict_element := false, type_hint := "" } ]
  , outputs := [("out", ["string"])] }

/-- Blocks description for the cyclic workflow examples. -/
def bdLoop : BlocksDescription :=
  { blocks := [loopManifest], declared_kinds := ["string"] }

/-- Step selecting the output of another step, for the cycle examples. -/
def loopStep (me other : String) : StepSpec :=
  { type_id := "loop_block", name := me
  , params := [("p", ParamValue.stepSel other "out")] }

/-- Workflow whose two steps select each other, declared A before B. -/
def wdCycleAB : WorkflowDefinition :=
  { inputs := [], steps := [loopStep "A" "B", loopStep "B" "A"]
  , outputs := [] }

/-- Workflow whose two steps select each other, declared B before A. -/
def wdCycleBA : WorkflowDefinition :=
  { inputs := [], steps := [loopStep "B" "A", loopStep "A" "B"]
  , outputs := [] }

/-- Manifest of the producer block of the tolerance example. -/
def producerManifest : BlockManifest :=
  { manifest_type_identifier := "producer_block"
  , description := "producer"
  , properties :=
      [ { name := "x", description := "input", kinds := []
        , selector_capable := true, is_list_element := false
        , is_dict_element := false, type_hint := "" } ]
  , outputs := [("out", ["string"])] }

/-- Manifest of the consumer block of the tolerance example. -/
def consumerManifest : BlockManifest :=
  { manifest_type_identifier := "consumer_block"
  , description := "consumer"
  , properties :=
      [ { name := "y", description := "input", kinds := []
        , selector_capable := true, is_list_element := false
        , is_dict_element := false, type_hint := "" } ]
  , outputs := [("out", ["string"])] }

/-- Producer step reading the workflow input. -/
def producerStep : StepSpec :=
  { type_id := "producer_block", name := "producer"
  , params := [("x", ParamValue.inputSel "x")] }

/-- Consumer step reading the producer output. -/
def consumerStep : StepSpec :=
  { type_id := "consumer_block", name := "consumer"
  , params := [("y", ParamValue.stepSel "producer" "out")] }

/-- Engine of the producer-consumer workflow family used to exercise the
error-tolerance semantics: one batched input, a producer feeding a
downstream consumer, one declared output selecting the consumer. -/
def pcEngine : Engine :=
  { inputs := [{ type_id := "Any", name := "x", kind := [] }]
  , steps := [producerStep, consumerStep]
  , outputs :=
      [ { name := "result", selector := SelRef.step "consumer" "out"
        , coordinates_system := "own" } ]
  , blocks_description :=
      { blocks := [producerManifest, consumerManifest]
      , declared_kinds := ["string"] } }

/-- Engine with no steps and one output echoing the input, used to witness
the entry-point contract on a concrete batch. -/
def idEngine : Engine :=
  { inputs := [{ type_id := "Any", name := "x", kind := [] }]
  , steps := []
  , outputs :=
      [ { name := "o", selector := SelRef.inp "x", coordinates_system := "own" } ]
  , blocks_description := { blocks := [], declared_kinds := [] } }

/-- Block runtime used by concrete witnesses: the producer block fails on
the value 1 and otherwise outputs the constant 5; the consumer block echoes
its parameter. -/
def rbW : RunBlock := fun t params =>
  if t = "producer_block" then
    match params with
    | [(_, Value.vnat 1)] => Except.error "boom"
    | [(_, _)] => Except.ok [("out", Value.vnat 5)]
    | _ => Except.error "bad arity"
  else
    match params with
    | [(_, v)] => Except.ok [("out", v)]
    | _ => Except.error "bad arity"

/-- Tolerance policy used by concrete witnesses: every block tolerant. -/
def tolW : Tolerant := fun _ => true

/-- Expected output mapping of the i-th element of a producer-consumer run
whose producer fails exactly on element j: the sentinel for j, the composed
block results elsewhere. -/
def pcExpected (g f : Value → Value) (elems : List Value) (j i : Nat) :
    List (String × OutputValue) :=
  if i = j then [("result", Sum.inl Value.noOutput)]
  else [("result", Sum.inl (g (f (elems.getD i Value.noOutput))))]

/-- Dynamic definition used by concrete witnesses. -/
def dynDefW : DynamicBlockDefinition :=
  { manifest_type_identifier := "dyn_block"
  , description := "dynamic block"
  , properties := []
  , outputs := [("out", ["string"])]
  , body := "expression" }

/-- Membership form of `is_compatible`. -/
theorem is_compatible_iff (p c : List String) :
    is_compatible p c = true ↔ ∃ k, k ∈ p ∧ k ∈ c := by
  simp [is_compatible, List.any_eq_true]

/-- C2: for every pair of non-empty kind sets, `is_compatible` returns true
iff the two sets have a non-empty intersection; it is symmetric, a
parameter accepting kinds X and Y accepts a producer declaring kinds Y and
Z, and rejects a producer declaring only Z. -/
theorem C2_kind_compatibility (p c : List String) (_hp : p ≠ []) (_hc : c ≠ []) :
    (is_compatible p c = true ↔ ∃ k, k ∈ p ∧ k ∈ c) ∧
    is_compatible p c = is_compatible c p ∧
    is_compatible ["Y", "Z"] ["X", "Y"] = true ∧
    is_compatible ["Z"] ["X", "Y"] = false := by
  refine ⟨is_compatible_iff p c, ?_, by decide, by decide⟩
  rw [Bool.eq_iff_iff, is_compatible_iff, is_compatible_iff]
  exact ⟨fun ⟨k, h1, h2⟩ => ⟨k, h2, h1⟩, fun ⟨k, h1, h2⟩ => ⟨k, h2, h1⟩⟩

/-- Witness for C2 at concrete non-empty kind sets. -/
theorem C2_kind_compatibility_witness :
    (["a", "b"] : List String) ≠ [] ∧ (["b", "c"] : List String) ≠ [] ∧
    ((is_compatible ["a", "b"] ["b", "c"] = true ↔
        ∃ k, k ∈ (["a", "b"] : List String) ∧ k ∈ (["b", "c"] : List String)) ∧
      is_compatible ["a", "b"] ["b", "c"] = is_compatible ["b", "c"] ["a", "b"] ∧
      is_compatible ["Y", "Z"] ["X", "Y"] = true ∧
      is_compatible ["Z"] ["X", "Y"] = false) :=
  ⟨by decide, by decide,
    C2_kind_compatibility ["a", "b"] ["b", "c"] (by decide) (by decide)⟩

/-- C8: compiling the same definition against the same blocks description
twice yields graphs with the same step ordering and the same edge set, and
connection discovery applied twice to the same blocks description yields
the same connection map. -/
theorem C8_deterministic (wd : WorkflowDefinition) (bd bd2 : BlocksDescription)
    (g g2 : ExecutionGraph) (h : compile wd bd = Except.ok g)
    (h2 : compile wd bd = Except.ok g2) :
    (g.order = g2.order ∧ g.edges = g2.edges) ∧
    discover_blocks_connections bd2 = discover_blocks_connections bd2 := by
  rw [h] at h2
  injection h2 with h3
  subst h3
  exact ⟨⟨rfl, rfl⟩, rfl⟩

/-- Witness for C8 on the forward-reference workflow of the test file. -/
theorem C8_deterministic_witness :
    compile wdForward bdModels = Except.ok graphForward ∧
    ((graphForward.order = graphForward.order ∧
        graphForward.edges = graphForward.edges) ∧
      discover_blocks_connections bdModels = discover_blocks_connections bdModels) :=
  ⟨rfl, C8_deterministic wdForward bdModels bdModels graphForward graphForward
    rfl rfl⟩

/-- C9: the annotator cache key is built only from the color palette, the
palette size, the color axis and the opacity; a second `getAnnotator` call
agreeing on these four arguments returns the annotator cached by the first
call unchanged, even when the custom colors differ, so the custom colors
influence the returned annotator only on the first call for a given key. -/
theorem C9_annotator_cache (gp : String → Nat → List String → List String)
    (cache : List (String × Annotator)) (cp : String) (ps : Nat)
    (cc1 cc2 : List String) (ca : String) (op : Rat) :
    getAnnotator gp (getAnnotator gp cache cp ps cc1 ca op).2 cp ps cc2 ca op
      = ((getAnnotator gp cache cp ps cc1 ca op).1,
          (getAnnotator gp cache cp ps cc1 ca op).2) := by
  cases h : cacheLookup cache (annotatorCacheKey cp ps ca op) with
  | some a =>
      simp only [getAnnotator, h]
  | none =>
      simp only [getAnnotator, h]
      simp [cacheLookup, List.find?]

/-- C10: `MaskVisualizationBlock.run` returns a mapping with exactly one
key, the output-image key, whose value keeps the parent metadata and the
workflow root ancestor metadata of the input image and replaces only the
pixel data by the annotated image. -/
theorem C10_mask_run_frame {Md Img Det : Type}
    (gp : String → Nat → List String → List String)
    (annotate : Annotator → Img → Det → Img) (copyImage : Img → Img)
    (cache : List (String × Annotator)) (image : WorkflowImageData Md Img)
    (predictions : Det) (copy_image : Bool) (cp : String) (ps : Nat)
    (cc : List String) (ca : String) (op : Rat) :
    (maskVisualizationRun gp annotate copyImage cache image predictions
        copy_image cp ps cc ca op).1
      = [(OUTPUT_IMAGE_KEY,
          { parent_metadata := image.parent_metadata
          , workflow_root_ancestor_metadata :=
              image.workflow_root_ancestor_metadata
          , numpy_image := annotate (getAnnotator gp cache cp ps cc ca op).1
              (if copy_image then copyImage image.numpy_image
                else image.numpy_image) predictions })] ∧
    ((maskVisualizationRun gp annotate copyImage cache image predictions
        copy_image cp ps cc ca op).1).map Prod.fst = [OUTPUT_IMAGE_KEY] :=
  ⟨rfl, rfl⟩

/-- Absence of duplicates detected by `hasDuplicate` is exactly `Nodup`. -/
theorem hasDuplicate_eq_false_iff (l : List String) :
    hasDuplicate l = false ↔ l.Nodup := by
  induction l with
  | nil => simp [hasDuplicate]
  | cons a l ih => simp [hasDuplicate, ih]

/-- Two equal identifiers at distinct positions are detected. -/
theorem hasDuplicate_of_get_eq (l : List String) (i j : Fin l.length)
    (hij : i ≠ j) (heq : l.get i = l.get j) : hasDuplicate l = true := by
  by_contra hfalse
  have hnd : l.Nodup := (hasDuplicate_eq_false_iff l).mp (by
    cases h : hasDuplicate l with
    | false => rfl
    | true => exact absurd h hfalse)
  exact hij (hnd.get_inj_iff.mp heq)

/-- An identifier occurring on both sides of an append is detected. -/
theorem hasDuplicate_append_of_mem (x : String) (l1 l2 : List String)
    (h1 : x ∈ l1) (h2 : x ∈ l2) : hasDuplicate (l1 ++ l2) = true := by
  induction l1 with
  | nil => cases h1
  | cons a l ih =>
      cases h1 with
      | head =>
          simp only [List.cons_append, hasDuplicate, Bool.or_eq_true]
          left
          simp [List.mem_append]
          right
          exact h2
      | tail _ hmem =>
          simp only [List.cons_append, hasDuplicate, Bool.or_eq_true]
          right
          exact ih hmem

/-- C6: two DynamicBlockDefinitions declaring the same type identifier make
the dynamic block compiler fail with DuplicateBlockTypeError, and a dynamic
identifier colliding with a static one makes the merged registry build fail
with DuplicateBlockTypeError. -/
theorem C6_duplicate_block_type :
    (∀ (declared : List String) (defs : List DynamicBlockDefinition)
        (i j : Fin defs.length), i ≠ j →
        (defs.get i).manifest_type_identifier
          = (defs.get j).manifest_type_identifier →
        compile_dynamic_blocks declared defs
          = Except.error CompileError.DuplicateBlockTypeError) ∧
    (∀ (declared : List String) (static_blocks dynamic_blocks : List BlockManifest)
        (t : String),
        t ∈ static_blocks.map BlockManifest.manifest_type_identifier →
        t ∈ dynamic_blocks.map BlockManifest.manifest_type_identifier →
        describe_available_blocks declared static_blocks dynamic_blocks
          = Except.error CompileError.DuplicateBlockTypeError) := by
  constructor
  · intro declared defs i j hij heq
    have hlen : (defs.map DynamicBlockDefinition.manifest_type_identifier).length
        = defs.length := List.length_map _ _
    have hdup : hasDuplicate
        (defs.map DynamicBlockDefinition.manifest_type_identifier) = true := by
      apply hasDuplicate_of_get_eq _ (Fin.cast hlen.symm i) (Fin.cast hlen.symm j)
      · intro hc
        apply hij
        apply Fin.ext
        simpa using congrArg Fin.val hc
      · simp only [List.get_eq_getElem, Fin.coe_cast, List.getElem_map]
        simpa using heq
    simp [compile_dynamic_blocks, hdup]
  · intro declared static_blocks dynamic_blocks t hs hd
    have hdup : hasDuplicate
        (static_blocks.map BlockManifest.manifest_type_identifier
          ++ dynamic_blocks.map BlockManifest.manifest_type_identifier) = true :=
      hasDuplicate_append_of_mem t _ _ hs hd
    simp [describe_available_blocks, List.map_append, hdup]

/-- Witness for C6 on a concrete duplicated pair of dynamic definitions. -/
theorem C6_duplicate_block_type_witness :
    compile_dynamic_blocks ["string"] [dynDefW, dynDefW]
      = Except.error CompileError.DuplicateBlockTypeError :=
  C6_duplicate_block_type.1 ["string"] [dynDefW, dynDefW]
    ⟨0, by decide⟩ ⟨1, by decide⟩ (by decide) rfl

/-- C5: for every (possibly absent) list of DynamicBlockDefinition, a
successful describe-blocks query returns a description containing the full
merged block catalog, the declared kinds, the kind-to-connection map, the
primitive-parameter connection list and the descriptions of the embedded
expression language operations and operators; an absent list behaves as the
empty list. -/
theorem C5_describe_blocks (static_blocks : List BlockManifest)
    (declared : List String) (ops oprs : List String)
    (dynOpt : Option (List DynamicBlockDefinition))
    (desc : WorkflowsBlocksDescription)
    (h : handle_describe_workflows_blocks_request static_blocks declared ops
      oprs dynOpt = Except.ok desc) :
    (handle_describe_workflows_blocks_request static_blocks declared ops oprs
        none
      = handle_describe_workflows_blocks_request static_blocks declared ops
        oprs (some [])) ∧
    ∃ dynamic_blocks blocks_description,
      compile_dynamic_blocks declared (dynOpt.getD []) = Except.ok dynamic_blocks ∧
      describe_available_blocks declared static_blocks dynamic_blocks
        = Except.ok blocks_description ∧
      desc.blocks = static_blocks ++ dynamic_blocks ∧
      desc.declared_kinds = declared ∧
      desc.kinds_connections
        = (discover_blocks_connections blocks_description).kinds_connections ∧
      desc.primitives_connections
        = (discover_blocks_connections blocks_description).primitives_connections ∧
      desc.universal_query_language_description
        = { operations_descriptions := ops, operators_descriptions := oprs } := by
  refine ⟨rfl, ?_⟩
  have hdefs : handle_describe_workflows_blocks_request static_blocks declared
      ops oprs (some (dynOpt.getD [])) = Except.ok desc := by
    cases dynOpt with
    | none => exact h
    | some l => exact h
  clear h
  rw [handle_describe_workflows_blocks_request.eq_def] at hdefs
  simp only at hdefs
  split at hdefs
  next e heq => exact absurd hdefs (by simp)
  next dynamic_blocks heq =>
    split at hdefs
    next e2 heq2 => exact absurd hdefs (by simp)
    next blocks_description heq2 =>
      have hmerged : blocks_description.blocks = static_blocks ++ dynamic_blocks
          ∧ blocks_description.declared_kinds = declared := by
        rw [describe_available_blocks] at heq2
        by_cases hdup : hasDuplicate
            ((static_blocks ++ dynamic_blocks).map
              BlockManifest.manifest_type_identifier) = true
        · rw [if_pos hdup] at heq2
          exact absurd heq2 (by simp)
        · rw [if_neg hdup] at heq2
          injection heq2 with hbd
          rw [← hbd]
          exact ⟨rfl, rfl⟩
      injection hdefs with hdesc
      refine ⟨dynamic_blocks, blocks_description, heq, heq2, ?_, ?_, ?_, ?_, ?_⟩
      · rw [← hdesc]
        exact hmerged.1
      · rw [← hdesc]
        exact hmerged.2
      · rw [← hdesc]
      · rw [← hdesc]
      · rw [← hdesc]

/-- Witness for C5 on a concrete catalog and one dynamic definition. -/
theorem C5_describe_blocks_witness :
    handle_describe_workflows_blocks_request [loopManifest] ["string"]
        ["detection filter"] ["equals"] (some [dynDefW])
      = Except.ok
        { blocks := [loopManifest] ++ [toBlockManifest dynDefW]
        , declared_kinds := ["string"]
        , kinds_connections := (discover_blocks_connections
            { blocks := [loopManifest] ++ [toBlockManifest dynDefW]
            , declared_kinds := ["string"] }).kinds_connections
        , primitives_connections := (discover_blocks_connections
            { blocks := [loopManifest] ++ [toBlockManifest dynDefW]
            , declared_kinds := ["string"] }).primitives_connections
        , universal_query_language_description :=
            { operations_descriptions := ["detection filter"]
            , operators_descriptions := ["equals"] }
        , dynamic_block_definition_schema := "DynamicBlockDefinition" } ∧
    ∃ dynamic_blocks blocks_description,
      compile_dynamic_blocks ["string"]
          ((some [dynDefW]).getD []) = Except.ok dynamic_blocks ∧
      describe_available_blocks ["string"] [loopManifest] dynamic_blocks
        = Except.ok blocks_description ∧
      ({ blocks := [loopManifest] ++ [toBlockManifest dynDefW]
       , declared_kinds := ["string"]
       , kinds_connections := (discover_blocks_connections
           { blocks := [loopManifest] ++ [toBlockManifest dynDefW]
           , declared_kinds := ["string"] }).kinds_connections
       , primitives_connections := (discover_blocks_connections
           { blocks := [loopManifest] ++ [toBlockManifest dynDefW]
           , declared_kinds := ["string"] }).primitives_connections
       , universal_query_language_description :=
           { operations_descriptions := ["detection filter"]
           , operators_descriptions := ["equals"] }
       , dynamic_block_definition_schema := "DynamicBlockDefinition" }
        : WorkflowsBlocksDescription).blocks
        = [loopManifest] ++ dynamic_blocks ∧ True := by
  have h := C5_describe_blocks [loopManifest] ["string"] ["detection filter"]
    ["equals"] (some [dynDefW]) _ rfl
  obtain ⟨-, dynamic_blocks, blocks_description, h1, h2, h3, -, -, -, -⟩ := h
  exact ⟨rfl, dynamic_blocks, blocks_description, h1, h2, h3, trivial⟩

/-- Pointwise description of a successful `runElements` execution. -/
theorem runElements_ok (rb : RunBlock) (tol : Tolerant) (e : Engine)
    (rp : List (String × InputValue)) :
    ∀ (is : List Nat) (l : List (List (String × OutputValue))),
      runElements rb tol e rp is = Except.ok l →
      l.length = is.length ∧
      ∀ k (hk : k < is.length) (hk2 : k < l.length),
        elementRun rb tol e rp (is.get ⟨k, hk⟩) = Except.ok (l.get ⟨k, hk2⟩) := by
  intro is
  induction is with
  | nil =>
      intro l h
      rw [runElements] at h
      injection h with h2
      subst h2
      exact ⟨rfl, fun k hk => absurd hk (by simp)⟩
  | cons i rest ih =>
      intro l h
      rw [runElements] at h
      split at h
      next err heq => exact absurd h (by simp)
      next out heq =>
        split at h
        next err heq2 => exact absurd h (by simp)
        next outs heq2 =>
          injection h with h3
          subst h3
          obtain ⟨hlen, hget⟩ := ih outs heq2
          refine ⟨by simp [hlen], ?_⟩
          intro k hk hk2
          cases k with
          | zero => simpa using heq
          | succ k2 =>
              simp only [List.get_cons_succ]
              exact hget k2 (by simpa using hk) (by simpa using hk2)

/-- Execution of listed elements succeeding pointwise. -/
theorem runElements_of_all (rb : RunBlock) (tol : Tolerant) (e : Engine)
    (rp : List (String × InputValue)) (w : Nat → List (String × OutputValue)) :
    ∀ is : List Nat, (∀ i ∈ is, elementRun rb tol e rp i = Except.ok (w i)) →
      runElements rb tol e rp is = Except.ok (is.map w) := by
  intro is
  induction is with
  | nil => intro _; rfl
  | cons i rest ih =>
      intro h
      have hi := h i (List.mem_cons_self i rest)
      rw [runElements, hi, ih (fun x hx => h x (List.mem_cons_of_mem i hx))]
      rfl

/-- Decomposition of a successful per-element execution. -/
theorem elementRun_ok (rb : RunBlock) (tol : Tolerant) (e : Engine)
    (rp : List (String × InputValue)) (i : Nat)
    (out : List (String × OutputValue))
    (h : elementRun rb tol e rp i = Except.ok out) :
    ∃ st, executeElement rb tol e.blocks_description e.steps
        (elementInputs rp i) = Except.ok st ∧
      out = assembleOutput e.outputs (elementInputs rp i) st := by
  rw [elementRun] at h
  split at h
  next err heq => exact absurd h (by simp)
  next st heq =>
      injection h with h2
      exact ⟨st, heq, h2.symm⟩

/-- Keys of an assembled output mapping are the declared output names. -/
theorem assembleOutput_keys (outs : List OutputSpec)
    (inputs : List (String × Value)) (st : ElementState) :
    (assembleOutput outs inputs st).map Prod.fst = outs.map OutputSpec.name := by
  simp [assembleOutput, List.map_map]

/-- C1: a completed `run` returns an ordered list with exactly one output
mapping per original batch element, the k-th mapping being assembled from
the k-th batch element's execution state, and the key list of every mapping
being exactly the declared output names. -/
theorem C1_run_contract (rb : RunBlock) (tol : Tolerant) (e : Engine)
    (rp : List (String × InputValue))
    (result : List (List (String × OutputValue)))
    (h : run rb tol e rp = Except.ok result) :
    ∃ n, batchSize rp = some n ∧ result.length = n ∧
      (∀ m ∈ result, m.map Prod.fst = e.outputs.map OutputSpec.name) ∧
      ∀ k (hk : k < n) (hk2 : k < result.length),
        ∃ st, executeElement rb tol e.blocks_description e.steps
            (elementInputs rp k) = Except.ok st ∧
          result.get ⟨k, hk2⟩ = assembleOutput e.outputs (elementInputs rp k) st := by
  rw [run] at h
  split at h
  next n heq => exact absurd h (by simp)
  next heq =>
    split at h
    next heq2 => exact absurd h (by simp)
    next n heq2 =>
      obtain ⟨hlen, hget⟩ := runElements_ok rb tol e rp (List.range n) result h
      have hlen2 : result.length = n := by simpa using hlen
      refine ⟨n, heq2, hlen2, ?_, ?_⟩
      · intro m hm
        obtain ⟨k, hk⟩ := List.mem_iff_get.mp hm
        have hk3 : (k : Nat) < (List.range n).length := by
          simp only [List.length_range]
          rw [← hlen2]
          exact k.isLt
        have hpt := hget (k : Nat) hk3 k.isLt
        simp only [List.get_eq_getElem, List.getElem_range] at hpt
        obtain ⟨st, hst, hout⟩ := elementRun_ok rb tol e rp (k : Nat) _ hpt
        rw [← hk]
        have hout2 : result.get k
            = assembleOutput e.outputs (elementInputs rp (k : Nat)) st := hout
        rw [hout2, assembleOutput_keys]
      · intro k hk hk2
        have hk3 : k < (List.range n).length := by simpa using hk

        have hpt := hget k hk3 hk2
        simp only [List.get_eq_getElem, List.getElem_range] at hpt
        obtain ⟨st, hst, hout⟩ := elementRun_ok rb tol e rp k _ hpt
        exact ⟨st, hst, hout⟩

/-- Witness for C1 on a concrete two-element batch. -/
theorem C1_run_contract_witness :
    ∃ n, batchSize [("x", InputValue.batch [Value.vnat 3, Value.vnat 4])] = some n ∧
      ([[("o", Sum.inl (Value.vnat 3))], [("o", Sum.inl (Value.vnat 4))]]
        : List (List (String × OutputValue))).length = n ∧
      (∀ m ∈ ([[("o", Sum.inl (Value.vnat 3))], [("o", Sum.inl (Value.vnat 4))]]
          : List (List (String × OutputValue))),
        m.map Prod.fst = idEngine.outputs.map OutputSpec.name) ∧
      ∀ k (hk : k < n)
        (hk2 : k < ([[("o", Sum.inl (Value.vnat 3))], [("o", Sum.inl (Value.vnat 4))]]
          : List (List (String × OutputValue))).length),
        ∃ st, executeElement rbW tolW idEngine.blocks_description idEngine.steps
            (elementInputs [("x", InputValue.batch [Value.vnat 3, Value.vnat 4])] k)
            = Except.ok st ∧
          ([[("o", Sum.inl (Value.vnat 3))], [("o", Sum.inl (Value.vnat 4))]]
            : List (List (String × OutputValue))).get ⟨k, hk2⟩
            = assembleOutput idEngine.outputs
                (elementInputs [("x", InputValue.batch [Value.vnat 3, Value.vnat 4])] k)
                st :=
  C1_run_contract rbW tolW idEngine
    [("x", InputValue.batch [Value.vnat 3, Value.vnat 4])]
    [[("o", Sum.inl (Value.vnat 3))], [("o", Sum.inl (Value.vnat 4))]] rfl

/-- Scheduling with fuel never completes while an unbroken cycle remains:
a nonempty set S of nodes each of which has a predecessor inside S can
never contain a ready node, so no member of S is ever ordered. -/
theorem topoAux_cycle_none (edges : List (String × String)) (S : List String)
    (hS : S ≠ []) (hcyc : ∀ x ∈ S, ∃ y ∈ S, (y, x) ∈ edges) :
    ∀ (fuel : Nat) (remaining done : List String),
      (∀ x ∈ S, x ∈ remaining) → (∀ x ∈ S, x ∉ done) →
      topoAux edges fuel remaining done = none := by
  intro fuel
  induction fuel with
  | zero =>
      intro remaining done hrem _hdone
      have hne : remaining.isEmpty ≠ true := by
        intro hemp
        obtain ⟨x, hx⟩ := List.exists_mem_of_ne_nil S hS
        have hmem := hrem x hx
        rw [List.isEmpty_iff.mp hemp] at hmem
        cases hmem
      rw [topoAux, if_neg hne]
  | succ fuel ih =>
      intro remaining done hrem hdone
      have hne : remaining.isEmpty ≠ true := by
        intro hemp
        obtain ⟨x, hx⟩ := List.exists_mem_of_ne_nil S hS
        have hmem := hrem x hx
        rw [List.isEmpty_iff.mp hemp] at hmem
        cases hmem
      rw [topoAux, if_neg hne]
      cases hpick : pickReady edges remaining done with
      | none => rfl
      | some n =>
          have hn := List.find?_some hpick
          have hnotS : n ∉ S := by
            intro hnS
            obtain ⟨y, hyS, hedge⟩ := hcyc n hnS
            have hready := (List.all_eq_true.mp hn) (y, n) hedge
            simp at hready
            exact hdone y hyS hready
          apply ih
          · intro x hxS
            have hxn : x ≠ n := fun hxeq => hnotS (hxeq ▸ hxS)
            exact (List.mem_erase_of_ne hxn).mpr (hrem x hxS)
          · intro x hxS
            simp only [List.mem_cons, not_or]
            exact ⟨fun hxeq => hnotS (hxeq ▸ hxS), hdone x hxS⟩

/-- Every edge produced by parameter resolution targets the resolved step. -/
theorem resolveParamValue_target (wd : WorkflowDefinition)
    (bd : BlocksDescription) (m : BlockManifest) (s : StepSpec)
    (pname : String) (pv : ParamValue) (es : List (String × String))
    (h : resolveParamValue wd bd m s pname pv = Except.ok es) :
    ∀ e ∈ es, e.2 = s.name := by
  cases pv with
  | lit v =>
      rw [resolveParamValue] at h
      injection h with h2
      subst h2
      intro e he
      cases he
  | inputSel n =>
      rw [resolveParamValue] at h
      split at h
      next heq => exact absurd h (by simp)
      next inp heq =>
        split at h
        · injection h with h2
          subst h2
          intro e he
          rw [List.mem_singleton] at he
          subst he
          rfl
        · exact absurd h (by simp)
  | stepSel y z =>
      rw [resolveParamValue] at h
      split at h
      next heq => exact absurd h (by simp)
      next t heq =>
        split at h
        next heq2 => exact absurd h (by simp)
        next tm heq2 =>
          split at h
          · injection h with h2
            subst h2
            intro e he
            rw [List.mem_singleton] at he
            subst he
            rfl
          · split at h
            next heq3 => exact absurd h (by simp)
            next o heq3 =>
              split at h
              · injection h with h2
                subst h2
                intro e he
                rw [List.mem_singleton] at he
                subst he
                rfl
              · exact absurd h (by simp)

/-- Edges collected over a parameter list target the resolved step. -/
theorem collectParamEdges_target (wd : WorkflowDefinition)
    (bd : BlocksDescription) (m : BlockManifest) (s : StepSpec) :
    ∀ (ps : List (String × ParamValue)) (es : List (String × String)),
      collectParamEdges wd bd m s ps = Except.ok es → ∀ e ∈ es, e.2 = s.name := by
  intro ps
  induction ps with
  | nil =>
      intro es h
      rw [collectParamEdges] at h
      injection h with h2
      subst h2
      intro e he
      cases he
  | cons p rest ih =>
      intro es h
      rw [collectParamEdges] at h
      split at h
      next err heq => exact absurd h (by simp)
      next es1 heq =>
        split at h
        next err heq2 => exact absurd h (by simp)
        next es2 heq2 =>
          injection h with h2
          subst h2
          intro e he
          rcases List.mem_append.mp he with he1 | he2
          · exact resolveParamValue_target wd bd m s p.1 p.2 es1 heq e he1
          · exact ih es2 heq2 e he2

/-- Edges collected for one step target that step. -/
theorem collectStepEdges_target (wd : WorkflowDefinition)
    (bd : BlocksDescription) (s : StepSpec) (es : List (String × String))
    (h : collectStepEdges wd bd s = Except.ok es) :
    ∀ e ∈ es, e.2 = s.name := by
  rw [collectStepEdges] at h
  split at h
  next heq => exact absurd h (by simp)
  next m heq => exact collectParamEdges_target wd bd m s s.params es h

/-- Edges collected over steps of the definition target declared steps. -/
theorem collectSteps_target (wd : WorkflowDefinition) (bd : BlocksDescription) :
    ∀ (ss : List StepSpec) (es : List (String × String)),
      (∀ s ∈ ss, s ∈ wd.steps) → collectSteps wd bd ss = Except.ok es →
      ∀ e ∈ es, e.2 ∈ stepNames wd := by
  intro ss
  induction ss with
  | nil =>
      intro es _hss h
      rw [collectSteps] at h
      injection h with h2
      subst h2
      intro e he
      cases he
  | cons s rest ih =>
      intro es hss h
      rw [collectSteps] at h
      split at h
      next err heq => exact absurd h (by simp)
      next es1 heq =>
        split at h
        next err heq2 => exact absurd h (by simp)
        next es2 heq2 =>
          injection h with h2
          subst h2
          intro e he
          rcases List.mem_append.mp he with he1 | he2
          · have hname := collectStepEdges_target wd bd s es1 heq e he1
            rw [hname]
            exact List.mem_map_of_mem StepSpec.name
              (hss s (List.mem_cons_self s rest))
          · exact ih es2 (fun x hx => hss x (List.mem_cons_of_mem s hx)) heq2 e he2

/-- C4: a workflow definition whose selector-induced dependency edges
contain a cycle — a nonempty node set each of whose members has a
predecessor in the set, as the mutual pair of the spec example does — makes
`compile` fail with CyclicGraphError; the quantification over definitions
covers every declaration order of the steps, and the two declaration orders
of the concrete mutual pair are confirmed explicitly. -/
theorem C4_cyclic_graph (wd : WorkflowDefinition) (bd : BlocksDescription)
    (edges : List (String × String)) (S : List String)
    (hedges : collectEdges wd bd = Except.ok edges) (hS : S ≠ [])
    (hcyc : ∀ x ∈ S, ∃ y ∈ S, (y, x) ∈ edges) :
    compile wd bd = Except.error CompileError.CyclicGraphError ∧
    compile wdCycleAB bdLoop = Except.error CompileError.CyclicGraphError ∧
    compile wdCycleBA bdLoop = Except.error CompileError.CyclicGraphError := by
  refine ⟨?_, rfl, rfl⟩
  have htopo : topoSort (inputNames wd ++ stepNames wd) edges = none := by
    rw [topoSort]
    apply topoAux_cycle_none edges S hS hcyc
    · intro x hx
      obtain ⟨y, _hy, hedge⟩ := hcyc x hx
      exact List.mem_append_right _
        (collectSteps_target wd bd wd.steps edges (fun _ hs => hs) hedges
          (y, x) hedge)
    · intro x _hx
      simp
  simp [compile, hedges, htopo]

/-- Witness for C4 on the concrete mutual pair of steps. -/
theorem C4_cyclic_graph_witness :
    collectEdges wdCycleAB bdLoop = Except.ok [("B", "A"), ("A", "B")] ∧
    (compile wdCycleAB bdLoop = Except.error CompileError.CyclicGraphError ∧
      compile wdCycleAB bdLoop = Except.error CompileError.CyclicGraphError ∧
      compile wdCycleBA bdLoop = Except.error CompileError.CyclicGraphError) :=
  ⟨rfl, C4_cyclic_graph wdCycleAB bdLoop [("B", "A"), ("A", "B")] ["A", "B"]
    rfl (by decide) (by decide)⟩

/-- Parameter resolution reports an unresolved step selector only when the
referent is absent from the definition. -/
theorem resolveParamValue_unresolved (wd : WorkflowDefinition)
    (bd : BlocksDescription) (m : BlockManifest) (s : StepSpec)
    (pname : String) (pv : ParamValue) (y z : String)
    (h : resolveParamValue wd bd m s pname pv
      = Except.error (CompileError.UnresolvedSelectorError (SelRef.step y z))) :
    stepReferentExists wd bd y z = false := by
  cases pv with
  | lit v =>
      rw [resolveParamValue] at h
      exact absurd h (by simp)
  | inputSel n =>
      rw [resolveParamValue] at h
      split at h
      next heq => simp at h
      next inp heq =>
        split at h
        · exact absurd h (by simp)
        · simp at h
  | stepSel y2 z2 =>
      rw [resolveParamValue] at h
      split at h
      next heq =>
        simp only [Except.error.injEq, CompileError.UnresolvedSelectorError.injEq,
          SelRef.step.injEq] at h
        obtain ⟨hy, hz⟩ := h
        subst hy
        subst hz
        simp [stepReferentExists, heq]
      next t heq =>
        split at h
        next heq2 => simp at h
        next tm heq2 =>
          split at h
          · exact absurd h (by simp)
          next hstar =>
            split at h
            next heq3 =>
              simp only [Except.error.injEq,
                CompileError.UnresolvedSelectorError.injEq, SelRef.step.injEq] at h
              obtain ⟨hy, hz⟩ := h
              rw [← hy, ← hz]
              rw [findBlock] at heq2
              simp [stepReferentExists, heq, findBlock, heq2]
              constructor
              · intro hzeq
                apply hstar
                simp [hzeq]
              · intro a b hab hae
                have hno := List.find?_eq_none.mp heq3 (a, b) hab
                simp at hno
                exact hno hae
            next o heq3 =>
              split at h
              · exact absurd h (by simp)
              · simp at h

/-- Edge collection over the parameters of a step reports an unresolved
step selector only when the referent is absent. -/
theorem collectParamEdges_unresolved (wd : WorkflowDefinition)
    (bd : BlocksDescription) (m : BlockManifest) (s : StepSpec) (y z : String) :
    ∀ ps : List (String × ParamValue),
      collectParamEdges wd bd m s ps
        = Except.error (CompileError.UnresolvedSelectorError (SelRef.step y z)) →
      stepReferentExists wd bd y z = false := by
  intro ps
  induction ps with
  | nil =>
      intro h
      rw [collectParamEdges] at h
      exact absurd h (by simp)
  | cons p rest ih =>
      intro h
      rw [collectParamEdges] at h
      split at h
      next err heq =>
        injection h with h2
        subst h2
        exact resolveParamValue_unresolved wd bd m s p.1 p.2 y z heq
      next es1 heq =>
        split at h
        next err heq2 =>
          injection h with h2
          subst h2
          exact ih heq2
        next es2 heq2 => exact absurd h (by simp)

/-- Edge collection for one step reports an unresolved step selector only
when the referent is absent. -/
theorem collectStepEdges_unresolved (wd : WorkflowDefinition)
    (bd : BlocksDescription) (s : StepSpec) (y z : String)
    (h : collectStepEdges wd bd s
      = Except.error (CompileError.UnresolvedSelectorError (SelRef.step y z))) :
    stepReferentExists wd bd y z = false := by
  rw [collectStepEdges] at h
  split at h
  next heq => simp at h
  next m heq => exact collectParamEdges_unresolved wd bd m s y z s.params h

/-- Edge collection over all steps reports an unresolved step selector only
when the referent is absent. -/
theorem collectSteps_unresolved (wd : WorkflowDefinition)
    (bd : BlocksDescription) (y z : String) :
    ∀ ss : List StepSpec,
      collectSteps wd bd ss
        = Except.error (CompileError.UnresolvedSelectorError (SelRef.step y z)) →
      stepReferentExists wd bd y z = false := by
  intro ss
  induction ss with
  | nil =>
      intro h
      rw [collectSteps] at h
      exact absurd h (by simp)
  | cons s rest ih =>
      intro h
      rw [collectSteps] at h
      split at h
      next err heq =>
        injection h with h2
        subst h2
        exact collectStepEdges_unresolved wd bd s y z heq
      next es1 heq =>
        split at h
        next err heq2 =>
          injection h with h2
          subst h2
          exact ih heq2
        next es2 heq2 => exact absurd h (by simp)

/-- Output checking only ever reports UnresolvedOutputError. -/
theorem checkOutputs_error_form (wd : WorkflowDefinition)
    (bd : BlocksDescription) :
    ∀ (outs : List OutputSpec) (e : CompileError),
      checkOutputs wd bd outs = Except.error e →
      ∃ nm, e = CompileError.UnresolvedOutputError nm := by
  intro outs
  induction outs with
  | nil =>
      intro e h
      rw [checkOutputs] at h
      exact absurd h (by simp)
  | cons o rest ih =>
      intro e h
      rw [checkOutputs] at h
      split at h
      · exact ih e h
      · injection h with h2
        exact ⟨o.name, h2.symm⟩

/-- C3: `compile` fails with UnresolvedSelectorError for `$steps.Y.Z` only
when the referent does not exist anywhere in the definition, so a selector
whose referent is declared anywhere — including textually after the
referring step — resolves; the forward-reference workflow of the test file
compiles, with the execution order derived from the dependency edges and
not from the declaration order. -/
theorem C3_selector_resolution :
    (∀ (wd : WorkflowDefinition) (bd : BlocksDescription) (y z : String),
      compile wd bd
          = Except.error (CompileError.UnresolvedSelectorError (SelRef.step y z)) →
        stepReferentExists wd bd y z = false) ∧
    (∀ (wd : WorkflowDefinition) (bd : BlocksDescription) (y z : String),
      stepReferentExists wd bd y z = true →
        compile wd bd
          ≠ Except.error (CompileError.UnresolvedSelectorError (SelRef.step y z))) ∧
    compile wdForward bdModels = Except.ok graphForward := by
  have hmain : ∀ (wd : WorkflowDefinition) (bd : BlocksDescription) (y z : String),
      compile wd bd
        = Except.error (CompileError.UnresolvedSelectorError (SelRef.step y z)) →
      stepReferentExists wd bd y z = false := by
    intro wd bd y z h
    rw [compile] at h
    split at h
    next err heq =>
      injection h with h2
      subst h2
      exact collectSteps_unresolved wd bd y z wd.steps heq
    next edges heq =>
      split at h
      · simp at h
      · split at h
        next err heq2 =>
          injection h with h2
          subst h2
          obtain ⟨nm, hnm⟩ := checkOutputs_error_form wd bd wd.outputs _ heq2
          cases hnm
        next heq2 => exact absurd h (by simp)
  refine ⟨hmain, ?_, rfl⟩
  intro wd bd y z htrue hcomp
  rw [hmain wd bd y z hcomp] at htrue
  cases htrue

/-- Witness for C3 on the forward-reference workflow of the test file. -/
theorem C3_selector_resolution_witness :
    compile wdForward bdModels
      ≠ Except.error (CompileError.UnresolvedSelectorError
          (SelRef.step "model_1" "predictions")) :=
  C3_selector_resolution.2.1 wdForward bdModels "model_1" "predictions"
    (by decide)

/-- Execution of one producer-consumer element whose producer block fails:
the tolerant producer yields the sentinel for its declared output and the
downstream consumer propagates the sentinel instead of running. -/
theorem pcElement_fail (rb : RunBlock) (tol : Tolerant) (v : Value)
    (msg : String) (hv : v ≠ Value.noOutput) (htol : tol "producer_block" = true)
    (hfail : rb "producer_block" [("x", v)] = Except.error msg) :
    executeElement rb tol pcEngine.blocks_description pcEngine.steps [("x", v)]
      = Except.ok [("consumer", [("out", Value.noOutput)]),
                   ("producer", [("out", Value.noOutput)])] := by
  have hvb : (v == Value.noOutput) = false := by simp [hv]
  have hstep1 : executeStep rb tol pcEngine.blocks_description [("x", v)]
      producerStep [] = Except.ok [("producer", [("out", Value.noOutput)])] := by
    rw [executeStep]
    simp [producerStep, resolveParam, lookupVal, List.find?, hvb, hfail, htol,
      outputFields, findBlock, pcEngine, producerManifest, consumerManifest]
  show executeSteps rb tol pcEngine.blocks_description [("x", v)]
      [producerStep, consumerStep] [] = _
  rw [executeSteps, hstep1]
  rfl

/-- Execution of one producer-consumer element in which both blocks
succeed. -/
theorem pcElement_ok (rb : RunBlock) (tol : Tolerant) (v w1 w2 : Value)
    (hv : v ≠ Value.noOutput) (hw1 : w1 ≠ Value.noOutput)
    (hprod : rb "producer_block" [("x", v)] = Except.ok [("out", w1)])
    (hcons : rb "consumer_block" [("y", w1)] = Except.ok [("out", w2)]) :
    executeElement rb tol pcEngine.blocks_description pcEngine.steps [("x", v)]
      = Except.ok [("consumer", [("out", w2)]), ("producer", [("out", w1)])] := by
  have hvb : (v == Value.noOutput) = false := by simp [hv]
  have hw1b : (w1 == Value.noOutput) = false := by simp [hw1]
  have hstep1 : executeStep rb tol pcEngine.blocks_description [("x", v)]
      producerStep [] = Except.ok [("producer", [("out", w1)])] := by
    rw [executeStep]
    simp [producerStep, resolveParam, lookupVal, List.find?, hvb, hprod]
  have hstep2 : executeStep rb tol pcEngine.blocks_description [("x", v)]
      consumerStep [("producer", [("out", w1)])]
      = Except.ok [("consumer", [("out", w2)]), ("producer", [("out", w1)])] := by
    rw [executeStep]
    simp [consumerStep, resolveParam, lookupVal, stepOuts, List.find?, hw1b,
      hcons]
  show executeSteps rb tol pcEngine.blocks_description [("x", v)]
      [producerStep, consumerStep] [] = _
  rw [executeSteps, hstep1]
  show executeSteps rb tol pcEngine.blocks_description [("x", v)]
      [consumerStep] [("producer", [("out", w1)])] = _
  rw [executeSteps, hstep2]
  rfl

/-- C7: in a producer-consumer run over a batch of N elements whose
error-tolerant producer block fails for exactly the j-th element, `run`
still returns N output mappings; the j-th mapping carries the "no output"
sentinel — propagated through the downstream consumer rather than raised —
while the other N-1 elements' outputs are produced normally. -/
theorem C7_error_tolerance (elems : List Value) (j : Nat)
    (hj : j < elems.length) (rb : RunBlock) (tol : Tolerant)
    (f g : Value → Value) (msg : String)
    (hvals : ∀ v ∈ elems, v ≠ Value.noOutput)
    (hf : ∀ v, f v ≠ Value.noOutput)
    (htol : tol "producer_block" = true)
    (hfail : rb "producer_block" [("x", elems.get ⟨j, hj⟩)] = Except.error msg)
    (hok : ∀ i (hi : i < elems.length), i ≠ j →
      rb "producer_block" [("x", elems.get ⟨i, hi⟩)]
        = Except.ok [("out", f (elems.get ⟨i, hi⟩))])
    (hcons : ∀ v, v ≠ Value.noOutput →
      rb "consumer_block" [("y", v)] = Except.ok [("out", g v)]) :
    ∃ result,
      run rb tol pcEngine [("x", InputValue.batch elems)] = Except.ok result ∧
      result.length = elems.length ∧
      ∀ i (hi : i < elems.length) (hi2 : i < result.length),
        result.get ⟨i, hi2⟩
          = if i = j then [("result", (Sum.inl Value.noOutput : OutputValue))]
            else [("result",
                (Sum.inl (g (f (elems.get ⟨i, hi⟩))) : OutputValue))] := by
  have hw : ∀ i ∈ List.range elems.length,
      elementRun rb tol pcEngine [("x", InputValue.batch elems)] i
        = Except.ok (pcExpected g f elems j i) := by
    intro i hi0
    have hi : i < elems.length := List.mem_range.mp hi0
    have hinp : elementInputs [("x", InputValue.batch elems)] i
        = [("x", elems.get ⟨i, hi⟩)] := by
      simp [elementInputs, List.getD, List.getElem?_eq_getElem hi]
    have hgd : elems.getD i Value.noOutput = elems.get ⟨i, hi⟩ := by
      rw [List.getD_eq_getElem elems Value.noOutput hi]
      simp
    have hv : elems.get ⟨i, hi⟩ ≠ Value.noOutput :=
      hvals (elems.get ⟨i, hi⟩) (elems.get_mem i hi)
    rw [elementRun, hinp]
    by_cases hij : i = j
    · have hfail2 : rb "producer_block" [("x", elems.get ⟨i, hi⟩)]
          = Except.error msg := by
        subst hij
        exact hfail
      rw [pcElement_fail rb tol _ msg hv htol hfail2]
      simp [pcExpected, hij, assembleOutput, resolveOutput, stepOuts,
        lookupVal, List.find?, pcEngine]
    · have hprod := hok i hi hij
      have hcons2 := hcons (f (elems.get ⟨i, hi⟩)) (hf _)
      rw [pcElement_ok rb tol _ _ _ hv (hf _) hprod hcons2]
      simp [pcExpected, hij, assembleOutput, resolveOutput, stepOuts,
        lookupVal, List.find?, pcEngine, List.getD, List.getElem?_eq_getElem hi]
  have hrun : run rb tol pcEngine [("x", InputValue.batch elems)]
      = runElements rb tol pcEngine [("x", InputValue.batch elems)]
        (List.range elems.length) := rfl
  have hres := runElements_of_all rb tol pcEngine
    [("x", InputValue.batch elems)] (pcExpected g f elems j)
    (List.range elems.length) hw
  refine ⟨(List.range elems.length).map (pcExpected g f elems j),
    hrun.trans hres, by simp, ?_⟩
  intro i hi hi2
  have hget : ((List.range elems.length).map (pcExpected g f elems j)).get
      ⟨i, hi2⟩ = pcExpected g f elems j i := by
    simp [List.get_eq_getElem, List.getElem_map, List.getElem_range]
  rw [hget]
  by_cases hij : i = j
  · simp [pcExpected, hij]
  · simp only [pcExpected, if_neg hij]
    simp [List.getD, List.getElem?_eq_getElem hi]

/-- Witness for C7 on a concrete two-element batch whose producer fails on
the first element only. -/
theorem C7_error_tolerance_witness :
    ∃ result,
      run rbW tolW pcEngine
          [("x", InputValue.batch [Value.vnat 1, Value.vnat 2])]
        = Except.ok result ∧
      result.length = [Value.vnat 1, Value.vnat 2].length ∧
      ∀ i (hi : i < [Value.vnat 1, Value.vnat 2].length)
        (hi2 : i < result.length),
        result.get ⟨i, hi2⟩
          = if i = 0 then [("result", (Sum.inl Value.noOutput : OutputValue))]
            else [("result", (Sum.inl (Value.vnat 5) : OutputValue))] :=
  C7_error_tolerance [Value.vnat 1, Value.vnat 2] 0 (by decide) rbW tolW
    (fun _ => Value.vnat 5) (fun v => v) "boom"
    (by decide)
    (by
      intro v
      simp)
    rfl
    rfl
    (by
      intro i hi hne
      match i, hi, hne with
      | 0, _, hne2 => exact absurd rfl hne2
      | 1, _, _ => rfl
      | (n + 2), hi2, _ =>
          have hlen : ([Value.vnat 1, Value.vnat 2] : List Value).length = 2 := rfl
          rw [hlen] at hi2
          exact absurd hi2 (by omega))
    (fun v _hv => rfl)

end Workflows
